import Mathlib

/-!
Verification development for the command-loading core of a multi-module CLI
framework (the `azure.cli.core` package init module).  The Python source is
embedded shallowly: dictionaries become association lists, dynamic imports
become lookups in an explicit module environment, exceptions become `Except`,
and logging or telemetry side effects become an explicit event list.
-/

set_option autoImplicit false

namespace AzSpec

universe u v

variable {κ : Type u} {α : Type v} [DecidableEq κ]

/-- First-match lookup, the read operation of a Python dict whose keys are
unique. -/
def assocGet : List (κ × α) → κ → Option α
  | [], _ => none
  | (k1, v) :: t, k => if k1 = k then some v else assocGet t k

/-- In-place overwrite or append, the write operation `d[k] = v`. -/
def assocSet : List (κ × α) → κ → α → List (κ × α)
  | [], k, v => [(k, v)]
  | (k1, v1) :: t, k, v => if k1 = k then (k, v) :: t else (k1, v1) :: assocSet t k v

/-- Python `dict.update`: write every pair of `r` into `t`, in order. -/
def assocUpdate (t : List (κ × α)) (r : List (κ × α)) : List (κ × α) :=
  r.foldl (fun acc p => assocSet acc p.1 p.2) t

/-- Python `k in d`. -/
def assocContains (t : List (κ × α)) (k : κ) : Bool :=
  (assocGet t k).isSome

/-- Python whitespace: the characters recognised by `str.split()` with no
separator argument. -/
def pyWs (c : Char) : Bool :=
  c == ' ' || c == '\t' || c == '\n' || c == '\r' || c == '\x0b' || c == '\x0c'

/-- Fuelled form of Python `str.split()` (split on whitespace runs, no empty
tokens, leading and trailing whitespace dropped). -/
def pySplitF : Nat → List Char → List (List Char)
  | 0, _ => []
  | _ + 1, [] => []
  | fuel + 1, c :: cs =>
    if pyWs c then pySplitF fuel cs
    else (c :: cs.takeWhile (fun x => !pyWs x)) :: pySplitF fuel (cs.dropWhile (fun x => !pyWs x))

/-- Python `str.split()` on `List Char`. -/
def pySplit (s : List Char) : List (List Char) := pySplitF s.length s

/-- Python `' '.join` on token lists. -/
def joinTokens : List (List Char) → List Char
  | [] => []
  | t :: ts =>
    match ts with
    | [] => t
    | _ :: _ => t ++ ' ' :: joinTokens ts

/-- Source, line 327: `name = ' '.join(name.split())` — the whitespace
canonicalization applied to every command name before it is used as the
command-table key. -/
def normalizeName (s : String) : String := ⟨joinTokens (pySplit s.data)⟩

/-- Fuelled collapse: every maximal whitespace run becomes one space. -/
def pyCollapseF : Nat → List Char → List Char
  | 0, s => s
  | _ + 1, [] => []
  | fuel + 1, c :: cs =>
    if pyWs c then ' ' :: pyCollapseF fuel (cs.dropWhile pyWs)
    else c :: pyCollapseF fuel cs

/-- Collapse every maximal whitespace run to a single space. -/
def pyCollapse (s : List Char) : List Char := pyCollapseF s.length s

/-- Strip leading whitespace. -/
def trimLeft (s : List Char) : List Char := s.dropWhile pyWs

/-- Strip trailing whitespace. -/
def trimRight (s : List Char) : List Char := (s.reverse.dropWhile pyWs).reverse

/-- Strip whitespace from both ends. -/
def pyTrim (s : List Char) : List Char := trimRight (trimLeft s)

/-- Modelled from the claim wording for the name canonicalization: every
maximal run of INTERNAL whitespace is replaced by a single space, while
leading and trailing whitespace is left untouched.  Used only to compare the
claimed canonicalization with the one the source implements. -/
def specCollapseInternal (s : List Char) : List Char :=
  let lead := s.takeWhile pyWs
  let rest := s.dropWhile pyWs
  let revRest := rest.reverse
  let trail := revRest.takeWhile pyWs
  let core := (revRest.dropWhile pyWs).reverse
  lead ++ pyCollapse core ++ trail.reverse

/-- Fuelled form of Python `str.replace` for a nonempty pattern: scan left to
right, replacing every non-overlapping occurrence. -/
def pyReplaceF (old new : List Char) : Nat → List Char → List Char
  | 0, s => s
  | fuel + 1, s =>
    if old ≠ [] ∧ old.isPrefixOf s then new ++ pyReplaceF old new fuel (s.drop old.length)
    else
      match s with
      | [] => []
      | c :: cs => c :: pyReplaceF old new fuel cs

/-- Python `str.replace(old, new)`: replaces EVERY occurrence of `old`.  The
empty-pattern case follows Python, which inserts `new` at every position. -/
def pyReplace (old new s : List Char) : List Char :=
  if old = [] then new ++ (s.map (fun c => c :: new)).flatten
  else pyReplaceF old new s.length s

/-- Python `s.split(sep)` for a single-character separator. -/
def splitOnChar (sep : Char) : List Char → List (List Char)
  | [] => [[]]
  | c :: cs =>
    let r := splitOnChar sep cs
    if c = sep then [] :: r
    else
      match r with
      | [] => [[c]]
      | g :: gs => (c :: g) :: gs

inductive PyObj : Type where
  | module (attrs : List (String × PyObj))
  | func (id : String)
  | method (fid : String)
  | cls (id : String) (attrs : List (String × PyObj))
  | builtinFunc (id : String)
  | str (s : String)
  | pynone
  | obj (id : String)

/-- Python `callable(x)`. -/
def pyCallable : PyObj → Bool
  | .func _ => true
  | .method _ => true
  | .cls _ _ => true
  | .builtinFunc _ => true
  | _ => false

/-- Python `isinstance(x, types.FunctionType)`. -/
def isFunctionType : PyObj → Bool
  | .func _ => true
  | _ => false

/-- Python `isinstance(x, six.string_types)`. -/
def isPyStr : PyObj → Bool
  | .str _ => true
  | _ => false

/-- Python `bool(x)` for the values of the model. -/
def pyTruthy : PyObj → Bool
  | .pynone => false
  | .str s => !s.isEmpty
  | _ => true

/-- `six.get_method_function`: read the underlying plain function of a bound
or class method; `AttributeError` (here `none`) on anything else. -/
def getFuncAttr : PyObj → Option PyObj
  | .method fid => some (.func fid)
  | _ => none

/-- Python `getattr` for the attribute containers of the model. -/
def pyGetattr : PyObj → String → Option PyObj
  | .module attrs, a => assocGet attrs a
  | .cls _ attrs, a => assocGet attrs a
  | _, _ => none

/-- Walk a dotted attribute chain with successive `getattr` calls. -/
def pyWalk : PyObj → List String → Option PyObj
  | o, [] => some o
  | o, a :: rest =>
    match pyGetattr o a with
    | none => none
    | some o2 => pyWalk o2 rest

/-- A resource type: an enumerated tag carrying the import path piece that
starts its unversioned SDK module paths, mirroring the corresponding
attribute of the source `ResourceType` enumeration. -/
structure ResourceTypeDef : Type where
  importPath : String
deriving DecidableEq

/-- The errors `get_op_handler` can surface: the caught `ValueError` or
`AttributeError` rethrown as the invalid-operation `ValueError` (carrying the
already substituted operation string), an uncaught `ModuleNotFoundError`
from the import, or any other uncaught exception escaping the import. -/
inductive OpResolveError : Type where
  | invalidOperation (op : String)
  | importError (modName : String)
  | otherError (msg : String)

/-- What `importlib.import_module` can do for one module path: deliver the
module object, raise `ModuleNotFoundError`, raise `ValueError` or
`AttributeError` (from the import machinery or from executing the module
body), or raise some other exception. -/
inductive ImportResult : Type where
  | found (mod : PyObj)
  | notFound
  | raisesValueError
  | raisesAttributeError
  | raisesOther (msg : String)

/-- Python `import_module(m)` over an explicit environment.  The empty
module path always raises `ValueError` (Python: Empty module name), as it
does when the operation string starts with the hash separator. -/
def pyImportModule (modules : List (String × ImportResult)) (m : String) : ImportResult :=
  if m = "" then .raisesValueError
  else
    match assocGet modules m with
    | none => .notFound
    | some r => r

/-- Source, lines 372-375: for every resource type whose import path starts
the operation string, the source replaces that piece by the versioned path. -/
def substituteOperation (rts : List ResourceTypeDef) (vp : ResourceTypeDef → String)
    (operation : String) : String :=
  rts.foldl
    (fun acc rt =>
      if rt.importPath.data.isPrefixOf acc.data then
        ⟨pyReplace rt.importPath.data (vp rt).data acc.data⟩
      else acc)
    operation

/-- Python `operation.split('#')` unpacked into exactly two parts; `none` is
the `ValueError` of a failed unpacking. -/
def splitHash (s : String) : Option (String × String) :=
  match splitOnChar '#' s.data with
  | [a, b] => some (⟨a⟩, ⟨b⟩)
  | _ => none

/-- Source, lines 382-384: a `FunctionType` value is returned as-is; anything
else goes through `six.get_method_function`, whose `AttributeError` becomes
the invalid-operation error. -/
def unwrapFinal (op : String) (o : PyObj) : Except OpResolveError PyObj :=
  if isFunctionType o then .ok o
  else
    match getFuncAttr o with
    | some f => .ok f
    | none => .error (.invalidOperation op)

/-- Source, lines 377-386 after the substitution: import the module, walk the
attribute chain, unwrap methods.  The handler `except (ValueError,
AttributeError)` wraps the WHOLE block, so it also catches a `ValueError` or
`AttributeError` raised by the import itself and rethrows it as the
invalid-operation error; `ModuleNotFoundError` and every other exception
escaping the import are not caught and propagate as distinct errors. -/
def resolveOperation (modules : List (String × ImportResult)) (op : String) :
    Except OpResolveError PyObj :=
  match splitHash op with
  | none => .error (.invalidOperation op)
  | some (m, attrChain) =>
    match pyImportModule modules m with
    | .notFound => .error (.importError m)
    | .raisesValueError => .error (.invalidOperation op)
    | .raisesAttributeError => .error (.invalidOperation op)
    | .raisesOther msg => .error (.otherError msg)
    | .found modObj =>
      match pyWalk modObj ((splitOnChar '.' attrChain.data).map (fun l => (⟨l⟩ : String))) with
      | none => .error (.invalidOperation op)
      | some o => unwrapFinal op o

/-- Source, lines 362-386: `get_op_handler`, over an explicit module
environment, resource-type enumeration and versioned-path resolver. -/
def getOpHandler (rts : List ResourceTypeDef) (vp : ResourceTypeDef → String)
    (modules : List (String × ImportResult)) (operation : String) :
    Except OpResolveError PyObj :=
  resolveOperation modules (substituteOperation rts vp operation)

/-- The value the dotted attribute chain of an operation string resolves to,
if the substituted string splits and the module imports. -/
def resolveChain (rts : List ResourceTypeDef) (vp : ResourceTypeDef → String)
    (modules : List (String × ImportResult)) (operation : String) : Option PyObj :=
  match splitHash (substituteOperation rts vp operation) with
  | none => none
  | some (m, attrChain) =>
    match pyImportModule modules m with
    | .found modObj =>
      pyWalk modObj ((splitOnChar '.' attrChain.data).map (fun l => (⟨l⟩ : String)))
    | _ => none

/-- Provenance recorded on a command that an extension contributed, mirroring
`ExtensionCommandSource`. -/
structure ExtensionCommandSource : Type where
  extension_name : String
  overrides_command : Bool
deriving DecidableEq, Repr

/-- A command table entry: the normalized name, the operation string or the
handler it was registered with, and its provenance (set only when an
extension registered or re-registered it). -/
structure AzCliCommand : Type where
  name : String
  operation : Option String
  handlerId : Option String
  command_source : Option ExtensionCommandSource
deriving DecidableEq, Repr

/-- Source, lines 320-325: the three authoring validations at the top of
`_cli_command`; `some msg` is a raised `TypeError`. -/
def cliCommandCheck (operation handler : PyObj) : Option String :=
  if pyTruthy operation && !isPyStr operation then
    some "Operation must be a string"
  else if pyTruthy handler && !pyCallable handler then
    some "Handler must be a callable"
  else if pyTruthy operation == pyTruthy handler then
    some "Must specify exactly one of either operation or handler"
  else none

/-- The entry `_cli_command` builds for the table: the command class applied
to the normalized name and the supplied operation or handler. -/
def mkRegisteredCommand (key : String) (operation handler : PyObj) : AzCliCommand :=
  { name := key
    operation := match operation with | .str s => some s | _ => none
    handlerId :=
      match handler with
      | .func f => some f
      | .builtinFunc f => some f
      | .method f => some f
      | .cls i _ => some i
      | _ => none
    command_source := none }

/-- Source, lines 318-360: `_cli_command` — validate, normalize the name,
then insert into the command table exactly when `supported_api_version`
approves the resource type and min/max API bounds from the kwargs. -/
def cliCommand (supportedApiVersion : Option String → Option String → Option String → Bool)
    (resourceType minApi maxApi : Option String)
    (table : List (String × AzCliCommand))
    (name : String) (operation handler : PyObj) :
    Except String (List (String × AzCliCommand)) :=
  match cliCommandCheck operation handler with
  | some e => .error e
  | none =>
    let key := normalizeName name
    if supportedApiVersion resourceType minApi maxApi then
      .ok (assocSet table key (mkRegisteredCommand key operation handler))
    else .ok table

/-- What `load_command_loader` does for one unit: produce a table fragment,
raise `ModuleNotFoundError`, or raise some other exception. -/
inductive LoadOutcome : Type where
  | ok (result : List (String × AzCliCommand))
  | moduleNotFound
  | err (msg : String)

/-- The mutable state of `MainCommandsLoader` the load phase touches. -/
structure MainLoaderState : Type where
  command_table : List (String × AzCliCommand)
  cmd_to_mod_map : List (String × String)
deriving DecidableEq, Repr

/-- Observable side effects of the load phase: the per-unit performance
monitor scopes, log records and telemetry reports. -/
inductive Ev : Type where
  | tryLoadModule (m : String)
  | tryLoadExtension (e : String)
  | debugLog (s : String)
  | errorLog (s : String)
  | warningLog (s : String)
  | telemetry (faultType : String) (summary : String)
  | findCommandModules (mods : List String)
deriving DecidableEq, Repr

/-- Source, lines 90-101: `_load_commands_from_command_module` — merge the
fragment into the table and the ownership map; `ModuleNotFoundError` is
caught and debug-logged; every other exception propagates. -/
def loadCommandsFromCommandModule (envM : String → LoadOutcome) (st : MainLoaderState)
    (modName : String) : Except String (MainLoaderState × List Ev) :=
  match envM modName with
  | .ok result =>
    .ok ({ command_table := assocUpdate st.command_table result,
           cmd_to_mod_map :=
             assocUpdate st.cmd_to_mod_map (result.map (fun p => (p.1, modName))) },
         [.tryLoadModule modName])
  | .moduleNotFound =>
    .ok (st, [.tryLoadModule modName, .debugLog ("Failed to load command module " ++ modName)])
  | .err e => .error e

/-- The provenance stamp of source lines 111-114. -/
def tagExtensionCommand (st : MainLoaderState) (extName : String) (cmdName : String)
    (cmd : AzCliCommand) : AzCliCommand :=
  { cmd with
    command_source :=
      some { extension_name := extName
             overrides_command := assocContains st.cmd_to_mod_map cmdName } }

/-- Source, lines 103-119: `_load_commands_from_extension` — stamp every
resulting command with extension provenance (recording whether the name was
already owned by a built-in module), then merge into the table; the ownership
map is NOT updated. -/
def loadCommandsFromExtension (envE : String → LoadOutcome) (st : MainLoaderState)
    (extName : String) : Except String (MainLoaderState × List Ev) :=
  match envE extName with
  | .ok result =>
    .ok ({ st with
           command_table :=
             assocUpdate st.command_table
               (result.map (fun p => (p.1, tagExtensionCommand st extName p.1 p.2))) },
         [.tryLoadExtension extName])
  | .moduleNotFound =>
    .ok (st, [.tryLoadExtension extName, .debugLog ("Failed to load extension " ++ extName)])
  | .err e => .error e

/-- Source, lines 159-169: the fallback loop over every installed command
module; a non-ModuleNotFound failure of one module is caught, error-logged,
reported to telemetry with the per-module fault tag, and the loop continues. -/
def fallbackScan (envM : String → LoadOutcome) :
    MainLoaderState → List String → MainLoaderState × List Ev
  | st, [] => (st, [])
  | st, modName :: rest =>
    match loadCommandsFromCommandModule envM st modName with
    | .ok (st1, evs1) =>
      let p := fallbackScan envM st1 rest
      (p.1, evs1 ++ p.2)
    | .error _ =>
      let p := fallbackScan envM st rest
      (p.1,
        (.tryLoadModule modName ::
          .errorLog ("Error loading command module " ++ modName) ::
          .telemetry ("module-load-error-" ++ modName) ("Error loading module: " ++ modName) ::
          []) ++ p.2)

/-- The fallback phase of source lines 149-170: enumerate the installed
command modules, filter the denylist out, log the list found, then scan. -/
def moduleFallbackPhase (envM : String → LoadOutcome) (denylist installed : List String)
    (st1 : MainLoaderState) (evs1 : List Ev) : Except String (MainLoaderState × List Ev) :=
  .ok ((fallbackScan envM st1 (installed.filter (fun m => !denylist.contains m))).1,
    evs1 ++ .findCommandModules (installed.filter (fun m => !denylist.contains m)) ::
      (fallbackScan envM st1 (installed.filter (fun m => !denylist.contains m))).2)

/-- Source, lines 121-170: `_update_command_table_from_modules` — targeted
load of the module named by the root command when that token is truthy and
not denylisted, with the fallback scan over the installed modules when the
table stays empty afterwards.  The targeted load attempt is NOT wrapped in a
broad exception handler, so its non-ModuleNotFound failures escape as
`.error`. -/
def updateCommandTableFromModules (envM : String → LoadOutcome)
    (denylist installed : List String) (st : MainLoaderState) (args : List String) :
    Except String (MainLoaderState × List Ev) :=
  match args with
  | [] => moduleFallbackPhase envM denylist installed st []
  | root :: _ =>
    if root ≠ "" ∧ ¬ denylist.contains root then
      match loadCommandsFromCommandModule envM st root with
      | .error e => .error e
      | .ok (st1, evs1) =>
        if st1.command_table.isEmpty then moduleFallbackPhase envM denylist installed st1 evs1
        else .ok (st1, evs1)
    else moduleFallbackPhase envM denylist installed st []

/-- The observable behavior of one contributing loader: the argument-registry
entries (keyed by command and argument name) and extra-argument entries its
own `load_arguments` step leaves behind. -/
structure ArgLoaderSpec : Type where
  id : String
  argumentRegistry : List ((String × String) × String)
  extraArgumentRegistry : List (String × String)
deriving DecidableEq, Repr

/-- The registries of the main loader that `load_arguments` merges into. -/
structure MainArgState : Type where
  argument_registry : List ((String × String) × String)
  extra_argument_registry : List (String × String)
deriving DecidableEq, Repr

/-- Observable steps of `load_arguments`: invoking one contributing loader,
registering one of the fixed cross-cutting overrides, and delegating to the
base class. -/
inductive ArgEv : Type where
  | loaderLoadArguments (loaderId command : String)
  | registerGlobalOverride (argName : String)
  | baseLoadArguments (command : String)
deriving DecidableEq, Repr

/-- The fixed cross-cutting overrides of source lines 222-226. -/
def globalArgOverrides : List String :=
  ["resource_group_name", "location", "deployment_name", "cmd"]

/-- Source, lines 210-228: `MainCommandsLoader.load_arguments` — look up the
contributing loaders; when the lookup yields a truthy value, replay each
contributing loader and merge its registries, register the cross-cutting
overrides, and delegate to the base class; otherwise do nothing. -/
def mainLoadArguments (cmdToLoaderMap : List (String × List ArgLoaderSpec))
    (st : MainArgState) (command : String) : MainArgState × List ArgEv :=
  match assocGet cmdToLoaderMap command with
  | none => (st, [])
  | some loaders =>
    if loaders.isEmpty then (st, [])
    else
      let step := loaders.foldl
        (fun acc l =>
          ({ argument_registry := assocUpdate acc.1.argument_registry l.argumentRegistry,
             extra_argument_registry :=
               assocUpdate acc.1.extra_argument_registry l.extraArgumentRegistry },
           acc.2 ++ [ArgEv.loaderLoadArguments l.id command]))
        (st, ([] : List ArgEv))
      (step.1,
        step.2 ++ globalArgOverrides.map ArgEv.registerGlobalOverride ++
          [ArgEv.baseLoadArguments command])

/-- Modelled from the claim wording for the versioned-path substitution:
substitute ONLY the leading occurrence of the import path piece.  Used only
to compare the claimed substitution with the one the source implements. -/
def specPrefixOnlySub (rt : ResourceTypeDef) (vp : ResourceTypeDef → String)
    (op : String) : String :=
  if rt.importPath.data.isPrefixOf op.data then
    ⟨(vp rt).data ++ op.data.drop rt.importPath.data.length⟩
  else op

/-- Whether a resolver outcome is the invalid-operation `ValueError`. -/
def isInvalidOperationError : Except OpResolveError PyObj → Bool
  | .error (.invalidOperation _) => true
  | _ => false

/-! ## Theorems -/

/-! ## Association-list model of Python dict -/

@[simp] theorem assocGet_nil (k : κ) : assocGet ([] : List (κ × α)) k = none := rfl

@[simp] theorem assocUpdate_nil (t : List (κ × α)) : assocUpdate t [] = t := rfl

@[simp] theorem assocUpdate_cons (t : List (κ × α)) (k : κ) (v : α) (r : List (κ × α)) :
    assocUpdate t ((k, v) :: r) = assocUpdate (assocSet t k v) r := rfl

theorem assocGet_set_self (t : List (κ × α)) (k : κ) (v : α) :
    assocGet (assocSet t k v) k = some v := by
  induction t with
  | nil => simp [assocSet, assocGet]
  | cons p t ih =>
    obtain ⟨k1, v1⟩ := p
    by_cases h : k1 = k
    · simp [assocSet, h, assocGet]
    · simp [assocSet, h, assocGet, ih]

theorem assocGet_set_ne (t : List (κ × α)) (k1 k : κ) (v : α) (h : k1 ≠ k) :
    assocGet (assocSet t k1 v) k = assocGet t k := by
  induction t with
  | nil => simp [assocSet, assocGet, h]
  | cons p t ih =>
    obtain ⟨k2, v2⟩ := p
    by_cases h2 : k2 = k1
    · subst h2
      simp [assocSet, assocGet, h]
    · by_cases h3 : k2 = k
      · subst h3
        simp [assocSet, h2, assocGet]
      · simp [assocSet, h2, assocGet, h3, ih]

theorem assocGet_update_of_not_mem (t : List (κ × α)) (r : List (κ × α)) (k : κ)
    (h : ∀ p ∈ r, p.1 ≠ k) :
    assocGet (assocUpdate t r) k = assocGet t k := by
  induction r generalizing t with
  | nil => rfl
  | cons p r ih =>
    obtain ⟨k1, v1⟩ := p
    have hk1 : k1 ≠ k := h (k1, v1) (List.mem_cons_self _ _)
    have h2 := ih (assocSet t k1 v1) (fun q hq => h q (List.mem_cons_of_mem _ hq))
    rw [assocUpdate_cons, h2]
    exact assocGet_set_ne t k1 k v1 hk1

theorem assocGet_update_of_mem (t : List (κ × α)) (r : List (κ × α)) (k : κ) (v : α)
    (hnd : (r.map Prod.fst).Nodup) (hmem : (k, v) ∈ r) :
    assocGet (assocUpdate t r) k = some v := by
  induction r generalizing t with
  | nil => cases hmem
  | cons p r ih =>
    obtain ⟨k1, v1⟩ := p
    rcases List.mem_cons.mp hmem with heq | hmem2
    · cases heq
      have hk : ∀ q ∈ r, q.1 ≠ k := by
        intro q hq
        have hnotmem := (List.nodup_cons.mp hnd).1
        intro hqk
        have hmem1 : q.1 ∈ r.map Prod.fst := List.mem_map.mpr ⟨q, hq, rfl⟩
        exact hnotmem (hqk ▸ hmem1)
      have h2 := assocGet_update_of_not_mem (assocSet t k v) r k hk
      rw [assocUpdate_cons, h2]
      exact assocGet_set_self t k v
    · exact ih (assocSet t k1 v1) (List.nodup_cons.mp hnd).2 hmem2

theorem assocContains_set (t : List (κ × α)) (k1 k : κ) (v : α)
    (h : assocContains t k = true) : assocContains (assocSet t k1 v) k = true := by
  by_cases hk : k1 = k
  · subst hk
    simp [assocContains, assocGet_set_self]
  · simpa [assocContains, assocGet_set_ne t k1 k v hk] using h

theorem assocContains_update_left (t : List (κ × α)) (r : List (κ × α)) (k : κ)
    (h : assocContains t k = true) : assocContains (assocUpdate t r) k = true := by
  induction r generalizing t with
  | nil => exact h
  | cons p r ih =>
    exact ih (assocSet t p.1 p.2) (assocContains_set t p.1 k p.2 h)

theorem assocContains_update_right (t : List (κ × α)) (r : List (κ × α)) (k : κ)
    (h : assocContains r k = true) : assocContains (assocUpdate t r) k = true := by
  induction r generalizing t with
  | nil => simp [assocContains, assocGet] at h
  | cons p r ih =>
    obtain ⟨k1, v1⟩ := p
    by_cases hk : k1 = k
    · subst hk
      exact assocContains_update_left (assocSet t k1 v1) r k1
        (by simp [assocContains, assocGet_set_self])
    · have h2 : assocContains r k = true := by
        simpa [assocContains, assocGet, hk] using h
      exact ih (assocSet t k1 v1) h2

theorem assocGet_map_value {β : Type v} (r : List (κ × α)) (g : κ → α → β) (k : κ) (v : α)
    (h : assocGet r k = some v) :
    assocGet (r.map (fun p => (p.1, g p.1 p.2))) k = some (g k v) := by
  induction r with
  | nil => simp [assocGet] at h
  | cons p r ih =>
    obtain ⟨k1, v1⟩ := p
    by_cases hk : k1 = k
    · subst hk
      simp [assocGet] at h
      simp [assocGet, h]
    · simp [assocGet, hk] at h
      simpa [assocGet, hk] using ih h

omit [DecidableEq κ] in
theorem map_value_keys_nodup {β : Type v} (r : List (κ × α)) (g : κ → α → β)
    (hnd : (r.map Prod.fst).Nodup) :
    ((r.map (fun p => (p.1, g p.1 p.2))).map Prod.fst).Nodup := by
  simpa [List.map_map, Function.comp] using hnd

omit [DecidableEq κ] in
theorem mem_map_value {β : Type v} (r : List (κ × α)) (g : κ → α → β) (k : κ) (v : α)
    (hmem : (k, v) ∈ r) : (k, g k v) ∈ r.map (fun p => (p.1, g p.1 p.2)) := by
  exact List.mem_map.mpr ⟨(k, v), hmem, rfl⟩

/-! ## Python string primitives

All string surgery of the source (`str.split`, `str.join`, `str.replace`,
`str.startswith`) is modelled on `List Char`.  Recursions that consume a
computed suffix are written with an explicit fuel argument so that every
definition is structural and evaluates by `decide` or `rfl`. -/

theorem length_dropWhile_le_az {α : Type u} (p : α → Bool) (l : List α) :
    (l.dropWhile p).length ≤ l.length := by
  induction l with
  | nil => simp
  | cons a l ih =>
    rw [List.dropWhile_cons]
    split
    · exact Nat.le_succ_of_le ih
    · simp

theorem pySplitF_congr : ∀ (f1 f2 : Nat) (s : List Char), s.length ≤ f1 → s.length ≤ f2 →
    pySplitF f1 s = pySplitF f2 s
  | 0, f2, s, h1, _ => by
    have : s = [] := List.length_eq_zero.mp (Nat.le_zero.mp h1)
    subst this
    cases f2 <;> rfl
  | _ + 1, 0, s, _, h2 => by
    have : s = [] := List.length_eq_zero.mp (Nat.le_zero.mp h2)
    subst this
    rfl
  | _ + 1, _ + 1, [], _, _ => rfl
  | f1 + 1, f2 + 1, c :: cs, h1, h2 => by
    have h1' : cs.length ≤ f1 := Nat.lt_succ_iff.mp h1
    have h2' : cs.length ≤ f2 := Nat.lt_succ_iff.mp h2
    by_cases h : pyWs c
    · simp only [pySplitF, h, if_pos]
      exact pySplitF_congr f1 f2 cs h1' h2'
    · have hd1 : (cs.dropWhile (fun x => !pyWs x)).length ≤ f1 :=
        Nat.le_trans (length_dropWhile_le_az _ cs) h1'
      have hd2 : (cs.dropWhile (fun x => !pyWs x)).length ≤ f2 :=
        Nat.le_trans (length_dropWhile_le_az _ cs) h2'
      simp only [pySplitF, h, if_neg, Bool.false_eq_true, not_false_iff]
      rw [pySplitF_congr f1 f2 _ hd1 hd2]

@[simp] theorem pySplit_nil : pySplit [] = [] := rfl

theorem pySplit_cons_ws (c : Char) (cs : List Char) (h : pyWs c = true) :
    pySplit (c :: cs) = pySplit cs := by
  show pySplitF (cs.length + 1) (c :: cs) = pySplitF cs.length cs
  simp only [pySplitF, h, if_pos]

theorem pySplit_cons_not_ws (c : Char) (cs : List Char) (h : pyWs c = false) :
    pySplit (c :: cs) =
      (c :: cs.takeWhile (fun x => !pyWs x)) :: pySplit (cs.dropWhile (fun x => !pyWs x)) := by
  show pySplitF (cs.length + 1) (c :: cs) = _
  simp only [pySplitF, h, Bool.false_eq_true, if_neg, not_false_iff]
  rw [pySplitF_congr cs.length (cs.dropWhile (fun x => !pyWs x)).length
    (cs.dropWhile (fun x => !pyWs x)) (length_dropWhile_le_az _ cs) (Nat.le_refl _)]
  rfl

theorem pyCollapseF_congr : ∀ (f1 f2 : Nat) (s : List Char), s.length ≤ f1 → s.length ≤ f2 →
    pyCollapseF f1 s = pyCollapseF f2 s
  | 0, f2, s, h1, _ => by
    have : s = [] := List.length_eq_zero.mp (Nat.le_zero.mp h1)
    subst this
    cases f2 <;> rfl
  | _ + 1, 0, s, _, h2 => by
    have : s = [] := List.length_eq_zero.mp (Nat.le_zero.mp h2)
    subst this
    rfl
  | _ + 1, _ + 1, [], _, _ => rfl
  | f1 + 1, f2 + 1, c :: cs, h1, h2 => by
    have h1' : cs.length ≤ f1 := Nat.lt_succ_iff.mp h1
    have h2' : cs.length ≤ f2 := Nat.lt_succ_iff.mp h2
    by_cases h : pyWs c
    · have hd1 : (cs.dropWhile pyWs).length ≤ f1 :=
        Nat.le_trans (length_dropWhile_le_az _ cs) h1'
      have hd2 : (cs.dropWhile pyWs).length ≤ f2 :=
        Nat.le_trans (length_dropWhile_le_az _ cs) h2'
      simp only [pyCollapseF, h, if_pos]
      rw [pyCollapseF_congr f1 f2 _ hd1 hd2]
    · simp only [pyCollapseF, h, Bool.false_eq_true, if_neg, not_false_iff]
      rw [pyCollapseF_congr f1 f2 cs h1' h2']

@[simp] theorem pyCollapse_nil : pyCollapse [] = [] := rfl

theorem pyCollapse_cons_ws (c : Char) (cs : List Char) (h : pyWs c = true) :
    pyCollapse (c :: cs) = ' ' :: pyCollapse (cs.dropWhile pyWs) := by
  show pyCollapseF (cs.length + 1) (c :: cs) = _
  simp only [pyCollapseF, h, if_pos]
  rw [pyCollapseF_congr cs.length (cs.dropWhile pyWs).length (cs.dropWhile pyWs)
    (length_dropWhile_le_az _ cs) (Nat.le_refl _)]
  rfl

theorem pyCollapse_cons_not_ws (c : Char) (cs : List Char) (h : pyWs c = false) :
    pyCollapse (c :: cs) = c :: pyCollapse cs := by
  show pyCollapseF (cs.length + 1) (c :: cs) = _
  simp only [pyCollapseF, h, Bool.false_eq_true, if_neg, not_false_iff]
  rfl

theorem isPrefixOf_length_le {α : Type u} [DecidableEq α] (l s : List α)
    (h : l.isPrefixOf s = true) : l.length ≤ s.length := by
  induction l generalizing s with
  | nil => simp
  | cons a l ih =>
    cases s with
    | nil => simp [List.isPrefixOf] at h
    | cons b s =>
      simp only [List.isPrefixOf_cons₂, Bool.and_eq_true] at h
      have := ih s h.2
      simpa [List.length_cons] using Nat.succ_le_succ this

theorem pyReplaceF_congr (old new : List Char) :
    ∀ (f1 f2 : Nat) (s : List Char), s.length ≤ f1 → s.length ≤ f2 →
    pyReplaceF old new f1 s = pyReplaceF old new f2 s
  | 0, f2, s, h1, _ => by
    have : s = [] := List.length_eq_zero.mp (Nat.le_zero.mp h1)
    subst this
    cases f2 with
    | zero => rfl
    | succ f2 => simp [pyReplaceF, List.isPrefixOf]
  | _ + 1, 0, s, _, h2 => by
    have : s = [] := List.length_eq_zero.mp (Nat.le_zero.mp h2)
    subst this
    simp [pyReplaceF, List.isPrefixOf]
  | f1 + 1, f2 + 1, s, h1, h2 => by
    simp only [pyReplaceF]
    by_cases h : old ≠ [] ∧ old.isPrefixOf s = true
    · rw [if_pos h, if_pos h]
      have hlen : old.length ≥ 1 := by
        cases old with
        | nil => exact absurd rfl h.1
        | cons a l => simp
      have hd1 : (s.drop old.length).length ≤ f1 := by
        rw [List.length_drop]
        omega
      have hd2 : (s.drop old.length).length ≤ f2 := by
        rw [List.length_drop]
        omega
      rw [pyReplaceF_congr old new f1 f2 _ hd1 hd2]
    · rw [if_neg h, if_neg h]
      cases s with
      | nil => rfl
      | cons c cs =>
        have h1' : cs.length ≤ f1 := Nat.lt_succ_iff.mp h1
        have h2' : cs.length ≤ f2 := Nat.lt_succ_iff.mp h2
        show c :: pyReplaceF old new f1 cs = c :: pyReplaceF old new f2 cs
        rw [pyReplaceF_congr old new f1 f2 cs h1' h2']

theorem pyReplace_of_isPrefixOf (old new s : List Char) (hne : old ≠ [])
    (h : old.isPrefixOf s = true) :
    pyReplace old new s = new ++ pyReplace old new (s.drop old.length) := by
  have hlen : old.length ≥ 1 := by
    cases old with
    | nil => exact absurd rfl hne
    | cons a l => simp
  have hs : s.length ≥ 1 := Nat.le_trans hlen (isPrefixOf_length_le old s h)
  unfold pyReplace
  rw [if_neg hne, if_neg hne]
  obtain ⟨n, hn⟩ : ∃ n, s.length = n + 1 := ⟨s.length - 1, by omega⟩
  rw [hn]
  simp only [pyReplaceF]
  rw [if_pos ⟨hne, h⟩]
  rw [pyReplaceF_congr old new n (s.drop old.length).length (s.drop old.length)
    (by rw [List.length_drop]; omega) (Nat.le_refl _)]

/-! ### The whitespace canonicalization, characterized -/

theorem pySplit_dropWhile_ws (s : List Char) : pySplit (s.dropWhile pyWs) = pySplit s := by
  induction s with
  | nil => rfl
  | cons c cs ih =>
    by_cases h : pyWs c
    · rw [List.dropWhile_cons_of_pos h, ih, pySplit_cons_ws c cs h]
    · rw [List.dropWhile_cons_of_neg h]

theorem dropWhile_eq_cons_not {α : Type u} (p : α → Bool) (l : List α) (c : α) (r : List α)
    (h : l.dropWhile p = c :: r) : p c = false := by
  induction l with
  | nil => simp at h
  | cons a l ih =>
    rw [List.dropWhile_cons] at h
    by_cases ha : p a
    · rw [if_pos ha] at h
      exact ih h
    · rw [if_neg ha] at h
      cases h
      exact Bool.not_eq_true _ |>.mp ha

theorem pySplit_tokens_ne_nil : ∀ (n : Nat) (s : List Char), s.length ≤ n →
    ∀ t ∈ pySplit s, t ≠ []
  | 0, s, h, t, hmem => by
    have : s = [] := List.length_eq_zero.mp (Nat.le_zero.mp h)
    subst this
    simp at hmem
  | n + 1, [], _, t, hmem => by simp at hmem
  | n + 1, c :: cs, h, t, hmem => by
    have h1 : cs.length ≤ n := Nat.lt_succ_iff.mp h
    by_cases hc : pyWs c
    · rw [pySplit_cons_ws c cs hc] at hmem
      exact pySplit_tokens_ne_nil n cs h1 t hmem
    · rw [pySplit_cons_not_ws c cs (Bool.not_eq_true _ |>.mp hc)] at hmem
      rcases List.mem_cons.mp hmem with heq | hmem2
      · subst heq
        simp
      · exact pySplit_tokens_ne_nil n (cs.dropWhile (fun x => !pyWs x))
          (Nat.le_trans (length_dropWhile_le_az _ cs) h1) t hmem2

theorem pyCollapse_append_not_ws (t r : List Char) (h : ∀ c ∈ t, pyWs c = false) :
    pyCollapse (t ++ r) = t ++ pyCollapse r := by
  induction t with
  | nil => rfl
  | cons c t ih =>
    have hc : pyWs c = false := h c (List.mem_cons_self _ _)
    rw [List.cons_append, pyCollapse_cons_not_ws c (t ++ r) hc,
      ih (fun x hx => h x (List.mem_cons_of_mem _ hx)), List.cons_append]

theorem pyCollapse_not_ws_self (t : List Char) (h : ∀ c ∈ t, pyWs c = false) :
    pyCollapse t = t := by
  have := pyCollapse_append_not_ws t [] h
  simpa using this

theorem trimRight_not_ws_self (t : List Char) (h : ∀ c ∈ t, pyWs c = false) :
    trimRight t = t := by
  unfold trimRight
  cases hrev : t.reverse with
  | nil =>
    simp only [List.dropWhile_nil, List.reverse_nil]
    exact (List.reverse_eq_nil_iff.mp hrev).symm
  | cons c cs =>
    have hc : c ∈ t := by
      have : c ∈ t.reverse := by
        rw [hrev]
        exact List.mem_cons_self _ _
      exact List.mem_reverse.mp this
    rw [List.dropWhile_cons_of_neg (by simp [h c hc]), ← hrev, List.reverse_reverse]

theorem trimRight_append (a b : List Char) :
    trimRight (a ++ b) = if trimRight b = [] then trimRight a else a ++ trimRight b := by
  unfold trimRight
  rw [List.reverse_append, List.dropWhile_append]
  by_cases h : (b.reverse.dropWhile pyWs).isEmpty
  · rw [if_pos h]
    rw [if_pos (by simpa [List.isEmpty_iff] using h)]
  · rw [if_neg h]
    rw [if_neg (by simpa [List.isEmpty_iff] using h)]
    rw [List.reverse_append, List.reverse_reverse]

theorem trimRight_cons_ws (x : Char) (y : List Char) (h : pyWs x = true) :
    trimRight (x :: y) = if trimRight y = [] then [] else x :: trimRight y := by
  have hx : trimRight [x] = [] := by
    unfold trimRight
    simp [h]
  have := trimRight_append [x] y
  simp only [List.singleton_append] at this
  rw [this]
  by_cases hy : trimRight y = []
  · rw [if_pos hy, if_pos hy, hx]
  · rw [if_neg hy, if_neg hy]

theorem trimLeft_pyCollapse_dropWhile (r2 : List Char) :
    trimLeft (pyCollapse (r2.dropWhile pyWs)) = pyCollapse (r2.dropWhile pyWs) := by
  cases hr : r2.dropWhile pyWs with
  | nil => rfl
  | cons d r4 =>
    have hd : pyWs d = false := dropWhile_eq_cons_not pyWs r2 d r4 hr
    rw [pyCollapse_cons_not_ws d r4 hd]
    unfold trimLeft
    rw [List.dropWhile_cons_of_neg (by simp [hd])]

theorem joinTokens_cons_ne_nil (t : List Char) (ts : List (List Char)) (h : t ≠ []) :
    joinTokens (t :: ts) ≠ [] := by
  cases ts with
  | nil => simpa [joinTokens] using h
  | cons t2 ts2 =>
    simp only [joinTokens]
    intro hcontra
    rcases List.append_eq_nil.mp hcontra with ⟨h1, _⟩
    exact h h1

theorem join_pySplit_eq_trim_collapse : ∀ (n : Nat) (s : List Char), s.length ≤ n →
    joinTokens (pySplit s) = pyTrim (pyCollapse s)
  | 0, s, h => by
    have : s = [] := List.length_eq_zero.mp (Nat.le_zero.mp h)
    subst this
    rfl
  | n + 1, [], _ => rfl
  | n + 1, c :: cs, h => by
    have h1 : cs.length ≤ n := Nat.lt_succ_iff.mp h
    by_cases hc : pyWs c
    · -- leading whitespace: both sides discard it
      rw [pySplit_cons_ws c cs hc, pyCollapse_cons_ws c cs hc]
      unfold pyTrim
      rw [show trimLeft (' ' :: pyCollapse (cs.dropWhile pyWs)) =
            trimLeft (pyCollapse (cs.dropWhile pyWs)) from
          List.dropWhile_cons_of_pos (by simp [pyWs])]
      rw [trimLeft_pyCollapse_dropWhile cs]
      have hfold : trimRight (pyCollapse (cs.dropWhile pyWs)) =
          pyTrim (pyCollapse (cs.dropWhile pyWs)) := by
        unfold pyTrim
        rw [trimLeft_pyCollapse_dropWhile cs]
      rw [hfold, ← join_pySplit_eq_trim_collapse n (cs.dropWhile pyWs)
        (Nat.le_trans (length_dropWhile_le_az _ cs) h1), pySplit_dropWhile_ws cs]
    · -- a token starts here
      have hc' : pyWs c = false := Bool.not_eq_true _ |>.mp hc
      rw [pySplit_cons_not_ws c cs hc']
      obtain ⟨tk, htk⟩ : ∃ tk, cs.takeWhile (fun x => !pyWs x) = tk := ⟨_, rfl⟩
      obtain ⟨r, hr⟩ : ∃ r, cs.dropWhile (fun x => !pyWs x) = r := ⟨_, rfl⟩
      rw [htk, hr]
      have hsplitcs : tk ++ r = cs := by
        rw [← htk, ← hr]
        exact List.takeWhile_append_dropWhile _ _
      have htnw : ∀ x ∈ c :: tk, pyWs x = false := by
        intro x hx
        rcases List.mem_cons.mp hx with heq | hmem
        · subst heq
          exact hc'
        · have := List.mem_takeWhile_imp (htk ▸ hmem)
          simpa using this
      have hcoll : pyCollapse (c :: cs) = (c :: tk) ++ pyCollapse r := by
        have heq : c :: cs = (c :: tk) ++ r := by
          rw [List.cons_append, hsplitcs]
        rw [heq, pyCollapse_append_not_ws (c :: tk) r htnw]
      rw [hcoll]
      unfold pyTrim
      rw [show trimLeft ((c :: tk) ++ pyCollapse r) = (c :: tk) ++ pyCollapse r from by
        unfold trimLeft
        rw [List.cons_append, List.dropWhile_cons_of_neg (by simp [hc'])]]
      cases r with
      | nil =>
        show joinTokens [c :: tk] = trimRight ((c :: tk) ++ pyCollapse [])
        rw [pyCollapse_nil, List.append_nil]
        exact (trimRight_not_ws_self (c :: tk) htnw).symm
      | cons w r2 =>
        have hw : pyWs w = true := by
          have := dropWhile_eq_cons_not (fun x => !pyWs x) cs w r2 hr
          simpa using this
        have hcollr : pyCollapse (w :: r2) = ' ' :: pyCollapse (r2.dropWhile pyWs) :=
          pyCollapse_cons_ws w r2 hw
        have hsplitr : pySplit (w :: r2) = pySplit (r2.dropWhile pyWs) := by
          rw [pySplit_cons_ws w r2 hw, pySplit_dropWhile_ws r2]
        have hr2len : (r2.dropWhile pyWs).length ≤ n := by
          have hrlen : (w :: r2).length ≤ cs.length := hr ▸ length_dropWhile_le_az _ cs
          have h2 : r2.length < (w :: r2).length := by simp
          exact Nat.le_trans (length_dropWhile_le_az pyWs r2) (by
            simp only [List.length_cons] at hrlen h2
            omega)
        have IH : joinTokens (pySplit (r2.dropWhile pyWs)) =
            pyTrim (pyCollapse (r2.dropWhile pyWs)) :=
          join_pySplit_eq_trim_collapse n (r2.dropWhile pyWs) hr2len
        have IH2 : joinTokens (pySplit (r2.dropWhile pyWs)) =
            trimRight (pyCollapse (r2.dropWhile pyWs)) := by
          rw [IH]
          unfold pyTrim
          rw [trimLeft_pyCollapse_dropWhile r2]
        rw [hcollr, trimRight_append (c :: tk) (' ' :: pyCollapse (r2.dropWhile pyWs)),
          trimRight_cons_ws ' ' _ (by simp [pyWs]), hsplitr]
        cases hts : pySplit (r2.dropWhile pyWs) with
        | nil =>
          have hB : trimRight (pyCollapse (r2.dropWhile pyWs)) = [] := by
            rw [← IH2, hts]
            rfl
          rw [hB]
          simp only [reduceIte]
          show joinTokens [c :: tk] = trimRight (c :: tk)
          exact (trimRight_not_ws_self (c :: tk) htnw).symm
        | cons t2 ts2 =>
          have ht2 : t2 ≠ [] :=
            pySplit_tokens_ne_nil n (r2.dropWhile pyWs) hr2len t2
              (hts ▸ List.mem_cons_self _ _)
          have hB : trimRight (pyCollapse (r2.dropWhile pyWs)) = joinTokens (t2 :: ts2) := by
            rw [← IH2, hts]
          have hBne : joinTokens (t2 :: ts2) ≠ [] := joinTokens_cons_ne_nil t2 ts2 ht2
          rw [hB, if_neg hBne, if_neg (by simp)]
          rfl

/-- The source canonicalization equals: collapse every whitespace run to one
space, then strip leading and trailing whitespace. -/
theorem normalizeName_eq_trim_collapse (s : String) :
    (normalizeName s).data = pyTrim (pyCollapse s.data) :=
  join_pySplit_eq_trim_collapse s.data.length s.data (Nat.le_refl _)

example : splitOnChar '#' "a.b#C.m".data = ["a.b".data, "C.m".data] := by decide
example : splitOnChar '#' "ab".data = ["ab".data] := by decide
example : splitOnChar '#' "a#b#c".data = ["a".data, "b".data, "c".data] := by decide
example : splitOnChar '.' "".data = ["".data] := by decide
example : normalizeName "  storage   account  list " = "storage account list" := by decide
example : normalizeName " a b" = "a b" := by decide
example : specCollapseInternal " a  b".data = " a b".data := by decide
example : pyReplace "p".data "q".data "p.x#p.f".data = "q.x#q.f".data := by decide

/-! ## A small model of Python runtime values

The values `get_op_handler` and `_cli_command` can encounter: modules and
classes (attribute containers), plain Python functions (`types.FunctionType`),
bound or class methods (objects exposing the wrapped plain function through
the dunder func attribute, which is what `six.get_method_function` reads),
builtin functions implemented in C (callable, but neither `FunctionType` nor
carrying an underlying function), strings, `None`, and other plain objects. -/

/-! ## The Operation Handler Resolver (`AzCommandsLoader.get_op_handler`) -/

/-! ## The Command Registrar (`AzCommandsLoader._cli_command`) -/

/-! ## The Module and Extension Loader (`MainCommandsLoader`) -/

/-! ### Helper lemmas about the module loader -/

theorem loadModule_events (envM : String → LoadOutcome) (st : MainLoaderState) (m : String)
    (st1 : MainLoaderState) (evs : List Ev)
    (h : loadCommandsFromCommandModule envM st m = .ok (st1, evs)) :
    ∀ e ∈ evs,
      e = Ev.tryLoadModule m ∨ e = Ev.debugLog ("Failed to load command module " ++ m) := by
  unfold loadCommandsFromCommandModule at h
  cases henv : envM m with
  | ok r =>
    simp only [henv] at h
    cases h
    intro e he
    simp only [List.mem_singleton] at he
    exact Or.inl he
  | moduleNotFound =>
    simp only [henv] at h
    cases h
    intro e he
    rcases List.mem_cons.mp he with h1 | h2
    · exact Or.inl h1
    · simp only [List.mem_singleton] at h2
      exact Or.inr h2
  | err e =>
    simp only [henv] at h
    cases h

theorem loadModule_contains_mono (envM : String → LoadOutcome) (st : MainLoaderState)
    (m : String) (st1 : MainLoaderState) (evs : List Ev) (name : String)
    (h : loadCommandsFromCommandModule envM st m = .ok (st1, evs))
    (hc : assocContains st.command_table name = true) :
    assocContains st1.command_table name = true := by
  unfold loadCommandsFromCommandModule at h
  cases henv : envM m with
  | ok r =>
    simp only [henv] at h
    cases h
    exact assocContains_update_left st.command_table r name hc
  | moduleNotFound =>
    simp only [henv] at h
    cases h
    exact hc
  | err e =>
    simp only [henv] at h
    cases h

theorem loadModule_ok_key (envM : String → LoadOutcome) (st : MainLoaderState)
    (m : String) (st1 : MainLoaderState) (evs : List Ev) (r : List (String × AzCliCommand))
    (name : String)
    (henv : envM m = .ok r)
    (h : loadCommandsFromCommandModule envM st m = .ok (st1, evs))
    (hk : assocContains r name = true) :
    assocContains st1.command_table name = true := by
  unfold loadCommandsFromCommandModule at h
  simp only [henv] at h
  cases h
  exact assocContains_update_right st.command_table r name hk

theorem fallbackScan_contains_mono (envM : String → LoadOutcome) (ms : List String)
    (st : MainLoaderState) (name : String)
    (h : assocContains st.command_table name = true) :
    assocContains (fallbackScan envM st ms).1.command_table name = true := by
  induction ms generalizing st with
  | nil => exact h
  | cons m rest ih =>
    unfold fallbackScan
    cases hl : loadCommandsFromCommandModule envM st m with
    | ok p =>
      obtain ⟨st1, evs1⟩ := p
      simp only
      exact ih st1 (loadModule_contains_mono envM st m st1 evs1 name hl h)
    | error e =>
      simp only
      exact ih st h

theorem fallbackScan_ok_contains (envM : String → LoadOutcome) (ms : List String)
    (st : MainLoaderState) (m2 : String) (r2 : List (String × AzCliCommand)) (name : String)
    (hmem : m2 ∈ ms) (henv : envM m2 = .ok r2) (hk : assocContains r2 name = true) :
    assocContains (fallbackScan envM st ms).1.command_table name = true := by
  induction ms generalizing st with
  | nil => cases hmem
  | cons m rest ih =>
    unfold fallbackScan
    rcases List.mem_cons.mp hmem with heq | hmem2
    · subst heq
      cases hl : loadCommandsFromCommandModule envM st m2 with
      | ok p =>
        obtain ⟨st1, evs1⟩ := p
        simp only
        exact fallbackScan_contains_mono envM rest st1 name
          (loadModule_ok_key envM st m2 st1 evs1 r2 name henv hl hk)
      | error e =>
        exfalso
        unfold loadCommandsFromCommandModule at hl
        simp only [henv] at hl
        cases hl
    · cases hl : loadCommandsFromCommandModule envM st m with
      | ok p =>
        obtain ⟨st1, evs1⟩ := p
        simp only
        exact ih st1 hmem2
      | error e =>
        simp only
        exact ih st hmem2

theorem fallbackScan_err_events (envM : String → LoadOutcome) (ms : List String)
    (st : MainLoaderState) (m : String) (e : String)
    (hmem : m ∈ ms) (herr : envM m = .err e) :
    Ev.errorLog ("Error loading command module " ++ m) ∈ (fallbackScan envM st ms).2 ∧
    Ev.telemetry ("module-load-error-" ++ m) ("Error loading module: " ++ m) ∈
      (fallbackScan envM st ms).2 := by
  induction ms generalizing st with
  | nil => cases hmem
  | cons m1 rest ih =>
    unfold fallbackScan
    rcases List.mem_cons.mp hmem with heq | hmem2
    · subst heq
      have hl : loadCommandsFromCommandModule envM st m = .error e := by
        unfold loadCommandsFromCommandModule
        simp only [herr]
      rw [hl]
      simp only
      constructor
      · exact List.mem_append_left _ (by simp)
      · exact List.mem_append_left _ (by simp)
    · cases hl : loadCommandsFromCommandModule envM st m1 with
      | ok p =>
        obtain ⟨st1, evs1⟩ := p
        simp only
        have := ih st1 hmem2
        exact ⟨List.mem_append_right _ this.1, List.mem_append_right _ this.2⟩
      | error e1 =>
        simp only
        have := ih st hmem2
        exact ⟨List.mem_append_right _ this.1, List.mem_append_right _ this.2⟩

/-! ## The Argument Finalizer (`MainCommandsLoader.load_arguments`) -/

/-! ## Claim theorems -/

/-- Claim C10: when a command name has no entry in the loader registry
(`cmd_to_loader_map`), `MainCommandsLoader.load_arguments` performs no work
at all — no per-loader argument loading or registry merge, no cross-cutting
overrides, no delegation to the base class, and the registries are
unchanged. -/
theorem C10_absent_command_no_work (cmdToLoaderMap : List (String × List ArgLoaderSpec))
    (st : MainArgState) (command : String)
    (h : assocGet cmdToLoaderMap command = none) :
    mainLoadArguments cmdToLoaderMap st command = (st, []) := by
  unfold mainLoadArguments
  rw [h]

theorem C10_absent_command_no_work_witness :
    assocGet [("storage list", [(⟨"storage", [], []⟩ : ArgLoaderSpec)])] "network list" = none ∧
    mainLoadArguments [("storage list", [(⟨"storage", [], []⟩ : ArgLoaderSpec)])]
      ⟨[], []⟩ "network list" = (⟨[], []⟩, []) :=
  ⟨rfl, C10_absent_command_no_work _ _ _ rfl⟩

/-- Claim C8: a registration call through `_cli_command` that passes the
authoring validations leaves the command table unchanged and raises no error
when `supported_api_version` returns false for the resource type and min/max
API bounds of the call, and inserts the entry exactly when it returns
true. -/
theorem C8_api_version_gate (sup : Option String → Option String → Option String → Bool)
    (rt mn mx : Option String) (table : List (String × AzCliCommand))
    (name : String) (operation handler : PyObj)
    (hv : cliCommandCheck operation handler = none) :
    (sup rt mn mx = false →
      cliCommand sup rt mn mx table name operation handler = .ok table) ∧
    (sup rt mn mx = true →
      cliCommand sup rt mn mx table name operation handler =
        .ok (assocSet table (normalizeName name)
          (mkRegisteredCommand (normalizeName name) operation handler)) ∧
      assocGet (assocSet table (normalizeName name)
          (mkRegisteredCommand (normalizeName name) operation handler)) (normalizeName name) =
        some (mkRegisteredCommand (normalizeName name) operation handler)) := by
  unfold cliCommand
  rw [hv]
  constructor
  · intro hsup
    simp only [hsup, Bool.false_eq_true, if_false]
  · intro hsup
    refine ⟨by simp only [hsup, if_true], assocGet_set_self _ _ _⟩

theorem C8_api_version_gate_witness :
    cliCommandCheck (PyObj.str "m#f") PyObj.pynone = none ∧
    cliCommand (fun _ _ _ => false) none none none [] "vm create"
      (PyObj.str "m#f") PyObj.pynone = .ok [] ∧
    cliCommand (fun _ _ _ => true) none none none [] "vm  create"
      (PyObj.str "m#f") PyObj.pynone =
      .ok [("vm create", mkRegisteredCommand "vm create" (PyObj.str "m#f") PyObj.pynone)] := by
  refine ⟨rfl, ?_, ?_⟩
  · exact (C8_api_version_gate (fun _ _ _ => false) none none none [] "vm create"
      (PyObj.str "m#f") PyObj.pynone rfl).1 rfl
  · have h := (C8_api_version_gate (fun _ _ _ => true) none none none [] "vm  create"
      (PyObj.str "m#f") PyObj.pynone rfl).2 rfl
    exact h.1.trans (by rfl)

/-- Claim C7 (counterexample): with `operation` the empty string (a supplied
string value) and a callable handler, the validation of `_cli_command`
succeeds even though BOTH arguments were supplied, because the check uses
Python truthiness and the empty string is falsy. -/
theorem C7_counterexample :
    cliCommandCheck (PyObj.str "") (PyObj.func "h") = none ∧
    isPyStr (PyObj.str "") = true ∧
    pyCallable (PyObj.func "h") = true ∧
    PyObj.str "" ≠ PyObj.pynone ∧
    PyObj.func "h" ≠ PyObj.pynone :=
  ⟨rfl, rfl, rfl, fun h => PyObj.noConfusion h, fun h => PyObj.noConfusion h⟩

/-- Claim C7 (amended): `_cli_command` raises an authoring error when both of
`operation` and `handler` are TRUTHY (a non-empty operation string, a
non-None handler) and when neither is truthy; validation succeeds exactly
when exactly one of the two is truthy, a truthy operation is a string, and a
truthy handler is callable. -/
theorem C7_exactly_one_truthy (operation handler : PyObj) :
    cliCommandCheck operation handler = none ↔
      (pyTruthy operation = true → isPyStr operation = true) ∧
      (pyTruthy handler = true → pyCallable handler = true) ∧
      pyTruthy operation ≠ pyTruthy handler := by
  unfold cliCommandCheck
  cases ho : pyTruthy operation <;> cases hh : pyTruthy handler <;>
    cases hs : isPyStr operation <;> cases hc : pyCallable handler <;>
      simp [ho, hh, hs, hc]

theorem C7_exactly_one_truthy_witness :
    cliCommandCheck (PyObj.str "m#f") PyObj.pynone = none :=
  (C7_exactly_one_truthy (PyObj.str "m#f") PyObj.pynone).mpr
    (by decide)

/-- Claim C9 (counterexample): the command-table key is NOT the name with
only the internal whitespace runs collapsed — a leading space is removed by
the source canonicalization but kept by the claimed one. -/
theorem C9_counterexample :
    normalizeName " vm create" = "vm create" ∧
    specCollapseInternal (" vm create" : String).data = (" vm create" : String).data ∧
    (" vm create" : String) ≠ "vm create" ∧
    cliCommand (fun _ _ _ => true) none none none [] " vm create"
      (PyObj.str "m#f") PyObj.pynone =
      .ok [("vm create", mkRegisteredCommand "vm create" (PyObj.str "m#f") PyObj.pynone)] :=
  ⟨rfl, by decide, by decide, rfl⟩

/-- Claim C9 (amended): the command-table key used by `_cli_command` is the
name with every maximal whitespace run collapsed to a single space AND the
leading and trailing whitespace removed. -/
theorem C9_whitespace_canonicalization (name : String) :
    (normalizeName name).data = pyTrim (pyCollapse name.data) ∧
    (∀ (sup : Option String → Option String → Option String → Bool)
      (rt mn mx : Option String) (table : List (String × AzCliCommand))
      (operation handler : PyObj),
      cliCommandCheck operation handler = none →
      sup rt mn mx = true →
      cliCommand sup rt mn mx table name operation handler =
        .ok (assocSet table ⟨pyTrim (pyCollapse name.data)⟩
          (mkRegisteredCommand ⟨pyTrim (pyCollapse name.data)⟩ operation handler))) := by
  have hkey : normalizeName name = ⟨pyTrim (pyCollapse name.data)⟩ := by
    have h := normalizeName_eq_trim_collapse name
    cases hn : normalizeName name
    rw [hn] at h
    simpa using congrArg String.mk h
  refine ⟨normalizeName_eq_trim_collapse name, ?_⟩
  intro sup rt mn mx table operation handler hv hsup
  unfold cliCommand
  rw [hv]
  simp only [hsup, if_true]
  rw [← hkey]

theorem C9_whitespace_canonicalization_witness :
    (normalizeName " vm  create ").data = pyTrim (pyCollapse (" vm  create " : String).data) ∧
    cliCommand (fun _ _ _ => true) none none none [] " vm  create "
      (PyObj.str "m#f") PyObj.pynone =
      .ok (assocSet [] (⟨pyTrim (pyCollapse (" vm  create " : String).data)⟩ : String)
        (mkRegisteredCommand ⟨pyTrim (pyCollapse (" vm  create " : String).data)⟩
          (PyObj.str "m#f") PyObj.pynone)) :=
  ⟨(C9_whitespace_canonicalization " vm  create ").1,
    (C9_whitespace_canonicalization " vm  create ").2 (fun _ _ _ => true) none none none []
      (PyObj.str "m#f") PyObj.pynone rfl rfl⟩

/-- Claim C5 (counterexample): the resource-type substitution of
`get_op_handler` is Python `str.replace`, which substitutes EVERY occurrence
of the import path piece, not only the leading occurrence. -/
theorem C5_counterexample :
    substituteOperation [⟨"p"⟩] (fun _ => "q") "p.x#p.f" = "q.x#q.f" ∧
    specPrefixOnlySub ⟨"p"⟩ (fun _ => "q") "p.x#p.f" = "q.x#p.f" ∧
    ("q.x#q.f" : String) ≠ "q.x#p.f" := by
  refine ⟨by decide, by decide, by decide⟩

/-- Claim C5 (amended): for a resource type whose import path piece starts
the operation string, the substituted string starts with the versioned SDK
path and the replacement continues over the whole remainder, substituting
every further occurrence as well; the module import then works on this
substituted string. -/
theorem C5_substitution_replaces_all (rt : ResourceTypeDef) (vp : ResourceTypeDef → String)
    (op : String) (hne : rt.importPath.data ≠ [])
    (hpre : rt.importPath.data.isPrefixOf op.data = true) :
    substituteOperation [rt] vp op =
      ⟨(vp rt).data ++ pyReplace rt.importPath.data (vp rt).data
        (op.data.drop rt.importPath.data.length)⟩ ∧
    (∀ modules, getOpHandler [rt] vp modules op =
      resolveOperation modules
        ⟨(vp rt).data ++ pyReplace rt.importPath.data (vp rt).data
          (op.data.drop rt.importPath.data.length)⟩) := by
  have hsub : substituteOperation [rt] vp op =
      ⟨pyReplace rt.importPath.data (vp rt).data op.data⟩ := by
    unfold substituteOperation
    simp only [List.foldl]
    rw [if_pos hpre]
  have hrep := pyReplace_of_isPrefixOf rt.importPath.data (vp rt).data op.data hne hpre
  have hstr : (⟨pyReplace rt.importPath.data (vp rt).data op.data⟩ : String) =
      ⟨(vp rt).data ++ pyReplace rt.importPath.data (vp rt).data
        (op.data.drop rt.importPath.data.length)⟩ :=
    congrArg String.mk hrep
  constructor
  · rw [hsub, hstr]
  · intro modules
    unfold getOpHandler
    rw [hsub, hstr]

theorem C5_substitution_replaces_all_witness :
    ("p" : String).data ≠ [] ∧
    ("p" : String).data.isPrefixOf ("p.ops#f" : String).data = true ∧
    substituteOperation [⟨"p"⟩] (fun _ => "q") "p.ops#f" =
      ⟨("q" : String).data ++ pyReplace ("p" : String).data ("q" : String).data
        (("p.ops#f" : String).data.drop ("p" : String).data.length)⟩ :=
  ⟨by decide, by decide,
    (C5_substitution_replaces_all ⟨"p"⟩ (fun _ => "q") "p.ops#f" (by decide) (by decide)).1⟩

@[simp] theorem unwrapFinal_func (op : String) (g : String) :
    unwrapFinal op (.func g) = .ok (.func g) := rfl

@[simp] theorem unwrapFinal_method (op : String) (fid : String) :
    unwrapFinal op (.method fid) = .ok (.func fid) := rfl

theorem unwrapFinal_other (op : String) (o : PyObj) (h1 : isFunctionType o = false)
    (h2 : getFuncAttr o = none) : unwrapFinal op o = .error (.invalidOperation op) := by
  unfold unwrapFinal
  rw [if_neg (by simp [h1])]
  rw [h2]

theorem unwrapFinal_ok_shape (op : String) (o r : PyObj)
    (h : unwrapFinal op o = .ok r) : ∃ g, r = PyObj.func g := by
  cases o with
  | func g =>
    rw [unwrapFinal_func] at h
    cases h
    exact ⟨g, rfl⟩
  | method fid =>
    rw [unwrapFinal_method] at h
    cases h
    exact ⟨fid, rfl⟩
  | module attrs =>
    rw [unwrapFinal_other op (PyObj.module attrs) rfl rfl] at h
    cases h
  | cls i attrs =>
    rw [unwrapFinal_other op (PyObj.cls i attrs) rfl rfl] at h
    cases h
  | builtinFunc i =>
    rw [unwrapFinal_other op (PyObj.builtinFunc i) rfl rfl] at h
    cases h
  | str s =>
    rw [unwrapFinal_other op (PyObj.str s) rfl rfl] at h
    cases h
  | pynone =>
    rw [unwrapFinal_other op PyObj.pynone rfl rfl] at h
    cases h
  | obj i =>
    rw [unwrapFinal_other op (PyObj.obj i) rfl rfl] at h
    cases h

theorem getOpHandler_split_none (rts : List ResourceTypeDef) (vp : ResourceTypeDef → String)
    (modules : List (String × ImportResult)) (operation : String)
    (hsp : splitHash (substituteOperation rts vp operation) = none) :
    getOpHandler rts vp modules operation =
      .error (.invalidOperation (substituteOperation rts vp operation)) := by
  unfold getOpHandler resolveOperation
  rw [hsp]

theorem getOpHandler_import_none (rts : List ResourceTypeDef) (vp : ResourceTypeDef → String)
    (modules : List (String × ImportResult)) (operation : String) (m attrChain : String)
    (hsp : splitHash (substituteOperation rts vp operation) = some (m, attrChain))
    (hmod : pyImportModule modules m = .notFound) :
    getOpHandler rts vp modules operation = .error (.importError m) := by
  unfold getOpHandler resolveOperation
  rw [hsp]
  simp only
  rw [hmod]

theorem getOpHandler_import_caught (rts : List ResourceTypeDef) (vp : ResourceTypeDef → String)
    (modules : List (String × ImportResult)) (operation : String) (m attrChain : String)
    (hsp : splitHash (substituteOperation rts vp operation) = some (m, attrChain))
    (hmod : pyImportModule modules m = .raisesValueError ∨
      pyImportModule modules m = .raisesAttributeError) :
    getOpHandler rts vp modules operation =
      .error (.invalidOperation (substituteOperation rts vp operation)) := by
  unfold getOpHandler resolveOperation
  rw [hsp]
  simp only
  rcases hmod with hmod | hmod <;> rw [hmod]

theorem getOpHandler_import_other (rts : List ResourceTypeDef) (vp : ResourceTypeDef → String)
    (modules : List (String × ImportResult)) (operation : String) (m attrChain msg : String)
    (hsp : splitHash (substituteOperation rts vp operation) = some (m, attrChain))
    (hmod : pyImportModule modules m = .raisesOther msg) :
    getOpHandler rts vp modules operation = .error (.otherError msg) := by
  unfold getOpHandler resolveOperation
  rw [hsp]
  simp only
  rw [hmod]

theorem getOpHandler_walk_none (rts : List ResourceTypeDef) (vp : ResourceTypeDef → String)
    (modules : List (String × ImportResult)) (operation : String) (m attrChain : String)
    (modObj : PyObj)
    (hsp : splitHash (substituteOperation rts vp operation) = some (m, attrChain))
    (hmod : pyImportModule modules m = .found modObj)
    (hwalk : pyWalk modObj ((splitOnChar '.' attrChain.data).map (fun l => (⟨l⟩ : String))) =
      none) :
    getOpHandler rts vp modules operation =
      .error (.invalidOperation (substituteOperation rts vp operation)) := by
  unfold getOpHandler resolveOperation
  rw [hsp]
  simp only
  rw [hmod]
  simp only
  rw [hwalk]

theorem resolveChain_some_of (rts : List ResourceTypeDef) (vp : ResourceTypeDef → String)
    (modules : List (String × ImportResult)) (operation : String) (m attrChain : String)
    (modObj o : PyObj)
    (hsp : splitHash (substituteOperation rts vp operation) = some (m, attrChain))
    (hmod : pyImportModule modules m = .found modObj)
    (hwalk : pyWalk modObj ((splitOnChar '.' attrChain.data).map (fun l => (⟨l⟩ : String))) =
      some o) :
    resolveChain rts vp modules operation = some o := by
  unfold resolveChain
  rw [hsp]
  simp only
  rw [hmod]
  simp only
  exact hwalk

theorem resolveChain_inv (rts : List ResourceTypeDef) (vp : ResourceTypeDef → String)
    (modules : List (String × ImportResult)) (operation : String) (o : PyObj)
    (h : resolveChain rts vp modules operation = some o) :
    ∃ m attrChain modObj,
      splitHash (substituteOperation rts vp operation) = some (m, attrChain) ∧
      pyImportModule modules m = .found modObj ∧
      pyWalk modObj ((splitOnChar '.' attrChain.data).map (fun l => (⟨l⟩ : String))) =
        some o := by
  unfold resolveChain at h
  cases hsp : splitHash (substituteOperation rts vp operation) with
  | none =>
    rw [hsp] at h
    cases h
  | some p =>
    obtain ⟨m, attrChain⟩ := p
    rw [hsp] at h
    simp only at h
    cases hmod : pyImportModule modules m with
    | found modObj =>
      rw [hmod] at h
      simp only at h
      exact ⟨m, attrChain, modObj, rfl, hmod, h⟩
    | notFound =>
      rw [hmod] at h
      cases h
    | raisesValueError =>
      rw [hmod] at h
      cases h
    | raisesAttributeError =>
      rw [hmod] at h
      cases h
    | raisesOther msg =>
      rw [hmod] at h
      cases h

theorem getOpHandler_of_chain (rts : List ResourceTypeDef) (vp : ResourceTypeDef → String)
    (modules : List (String × ImportResult)) (operation : String) (o : PyObj)
    (h : resolveChain rts vp modules operation = some o) :
    getOpHandler rts vp modules operation =
      unwrapFinal (substituteOperation rts vp operation) o := by
  unfold resolveChain at h
  unfold getOpHandler resolveOperation
  cases hsp : splitHash (substituteOperation rts vp operation) with
  | none =>
    rw [hsp] at h
    cases h
  | some p =>
    obtain ⟨m, attrChain⟩ := p
    rw [hsp] at h
    simp only at h ⊢
    cases hmod : pyImportModule modules m with
    | found modObj =>
      rw [hmod] at h
      simp only at h ⊢
      rw [h]
    | notFound =>
      rw [hmod] at h
      cases h
    | raisesValueError =>
      rw [hmod] at h
      cases h
    | raisesAttributeError =>
      rw [hmod] at h
      cases h
    | raisesOther msg =>
      rw [hmod] at h
      cases h

theorem getOpHandler_ok_chain (rts : List ResourceTypeDef) (vp : ResourceTypeDef → String)
    (modules : List (String × ImportResult)) (operation : String) (r : PyObj)
    (h : getOpHandler rts vp modules operation = .ok r) :
    ∃ o, resolveChain rts vp modules operation = some o ∧
      unwrapFinal (substituteOperation rts vp operation) o = .ok r := by
  unfold getOpHandler resolveOperation at h
  unfold resolveChain
  cases hsp : splitHash (substituteOperation rts vp operation) with
  | none =>
    rw [hsp] at h
    cases h
  | some p =>
    obtain ⟨m, attrChain⟩ := p
    rw [hsp] at h
    simp only at h ⊢
    cases hmod : pyImportModule modules m with
    | found modObj =>
      rw [hmod] at h
      simp only at h ⊢
      cases hwalk : pyWalk modObj
          ((splitOnChar '.' attrChain.data).map (fun l => (⟨l⟩ : String))) with
      | none =>
        rw [hwalk] at h
        cases h
      | some o =>
        rw [hwalk] at h
        exact ⟨o, rfl, h⟩
    | notFound =>
      rw [hmod] at h
      cases h
    | raisesValueError =>
      rw [hmod] at h
      cases h
    | raisesAttributeError =>
      rw [hmod] at h
      cases h
    | raisesOther msg =>
      rw [hmod] at h
      cases h

/-- Claim C4 (counterexample): an attribute chain can resolve to a CALLABLE
that is neither a plain function nor a method — here a class — and then
`get_op_handler` raises the invalid-operation error instead of returning an
unbound underlying function. -/
theorem C4_counterexample :
    pyCallable (PyObj.cls "C" []) = true ∧
    resolveChain [] (fun _ => "")
      [("m", ImportResult.found (PyObj.module [("C", PyObj.cls "C" [])]))] "m#C" =
      some (PyObj.cls "C" []) ∧
    getOpHandler [] (fun _ => "")
      [("m", ImportResult.found (PyObj.module [("C", PyObj.cls "C" [])]))] "m#C" =
      .error (.invalidOperation "m#C") :=
  ⟨rfl, rfl, rfl⟩

/-- Claim C4 (amended): whenever `get_op_handler` returns successfully, the
returned value is a plain function (never a bound method); a chain resolving
to a plain function is returned as-is, and a chain resolving to a bound or
class method is replaced by its underlying function.  Callables of any other
shape (classes, builtin functions) are not returned but raise the
invalid-operation error. -/
theorem C4_unbound_function (rts : List ResourceTypeDef) (vp : ResourceTypeDef → String)
    (modules : List (String × ImportResult)) (operation : String) (r : PyObj)
    (h : getOpHandler rts vp modules operation = .ok r) :
    (∃ g, r = PyObj.func g) ∧
    (∀ f, resolveChain rts vp modules operation = some (PyObj.func f) → r = PyObj.func f) ∧
    (∀ fid, resolveChain rts vp modules operation = some (PyObj.method fid) →
      r = PyObj.func fid) := by
  obtain ⟨o, hchain, hunwrap⟩ := getOpHandler_ok_chain rts vp modules operation r h
  refine ⟨unwrapFinal_ok_shape _ o r hunwrap, ?_, ?_⟩
  · intro f hf
    rw [hchain] at hf
    cases hf
    rw [unwrapFinal_func] at hunwrap
    cases hunwrap
    rfl
  · intro fid hfid
    rw [hchain] at hfid
    cases hfid
    rw [unwrapFinal_method] at hunwrap
    cases hunwrap
    rfl

theorem C4_unbound_function_witness :
    getOpHandler [] (fun _ => "")
      [("m", ImportResult.found
        (PyObj.module [("Ops", PyObj.cls "Ops" [("run", PyObj.method "run_impl")])]))]
      "m#Ops.run" = .ok (PyObj.func "run_impl") ∧
    resolveChain [] (fun _ => "")
      [("m", ImportResult.found
        (PyObj.module [("Ops", PyObj.cls "Ops" [("run", PyObj.method "run_impl")])]))]
      "m#Ops.run" = some (PyObj.method "run_impl") ∧
    (∃ g, PyObj.func "run_impl" = PyObj.func g) :=
  ⟨rfl, rfl,
    (C4_unbound_function [] (fun _ => "")
      [("m", ImportResult.found
        (PyObj.module [("Ops", PyObj.cls "Ops" [("run", PyObj.method "run_impl")])]))]
      "m#Ops.run" (PyObj.func "run_impl") rfl).1⟩

/-- Claim C6 (counterexample): the invalid-operation error is raised even
when the string splits fine and every attribute lookup along the chain
succeeds — a chain resolving to a builtin (C) function reaches the final
unwrap step, which raises `AttributeError`, rethrown as the invalid-operation
error; and for an operation starting with the hash separator, the split also
succeeds but the import of the empty module path raises a `ValueError` that
the handler rethrows as the invalid-operation error. -/
theorem C6_counterexample :
    splitHash "m2#blen" = some ("m2", "blen") ∧
    resolveChain [] (fun _ => "")
      [("m2", ImportResult.found (PyObj.module [("blen", PyObj.builtinFunc "len")]))]
      "m2#blen" = some (PyObj.builtinFunc "len") ∧
    getOpHandler [] (fun _ => "")
      [("m2", ImportResult.found (PyObj.module [("blen", PyObj.builtinFunc "len")]))]
      "m2#blen" = .error (.invalidOperation "m2#blen") ∧
    splitHash "#f" = some ("", "f") ∧
    pyImportModule [] "" = ImportResult.raisesValueError ∧
    getOpHandler [] (fun _ => "") [] "#f" = .error (.invalidOperation "#f") :=
  ⟨rfl, rfl, rfl, rfl, rfl, rfl⟩

/-- Claim C6 (amended): `get_op_handler` fails with the invalid-operation
error exactly when the substituted operation string does not split on the
hash separator into exactly two parts, or the import itself raises
`ValueError` or `AttributeError` (as `import_module` does on the empty module
path of an operation starting with the separator), or an attribute lookup
along the chain fails after a successful import, or the chain resolves to a
final object that is neither a plain function nor an object exposing an
underlying function.  (A missing module is a distinct, uncaught import
error, and any other exception escaping the import propagates as itself.) -/
theorem C6_invalid_operation_iff (rts : List ResourceTypeDef) (vp : ResourceTypeDef → String)
    (modules : List (String × ImportResult)) (operation : String) :
    isInvalidOperationError (getOpHandler rts vp modules operation) = true ↔
      (splitHash (substituteOperation rts vp operation) = none ∨
       (∃ m attrChain,
          splitHash (substituteOperation rts vp operation) = some (m, attrChain) ∧
          (pyImportModule modules m = .raisesValueError ∨
           pyImportModule modules m = .raisesAttributeError)) ∨
       (∃ m attrChain modObj,
          splitHash (substituteOperation rts vp operation) = some (m, attrChain) ∧
          pyImportModule modules m = .found modObj ∧
          pyWalk modObj ((splitOnChar '.' attrChain.data).map (fun l => (⟨l⟩ : String))) =
            none) ∨
       (∃ o, resolveChain rts vp modules operation = some o ∧
          isFunctionType o = false ∧ getFuncAttr o = none)) := by
  constructor
  · intro hinv
    cases hsp : splitHash (substituteOperation rts vp operation) with
    | none => exact Or.inl rfl
    | some p =>
      obtain ⟨m, attrChain⟩ := p
      cases hmod : pyImportModule modules m with
      | notFound =>
        rw [getOpHandler_import_none rts vp modules operation m attrChain hsp hmod] at hinv
        cases hinv
      | raisesValueError =>
        exact Or.inr (Or.inl ⟨m, attrChain, rfl, Or.inl hmod⟩)
      | raisesAttributeError =>
        exact Or.inr (Or.inl ⟨m, attrChain, rfl, Or.inr hmod⟩)
      | raisesOther msg =>
        rw [getOpHandler_import_other rts vp modules operation m attrChain msg hsp hmod]
          at hinv
        cases hinv
      | found modObj =>
        cases hwalk : pyWalk modObj
            ((splitOnChar '.' attrChain.data).map (fun l => (⟨l⟩ : String))) with
        | none =>
          exact Or.inr (Or.inr (Or.inl ⟨m, attrChain, modObj, rfl, hmod, hwalk⟩))
        | some o =>
          have hchain := resolveChain_some_of rts vp modules operation m attrChain modObj o
            hsp hmod hwalk
          rw [getOpHandler_of_chain rts vp modules operation o hchain] at hinv
          cases hft : isFunctionType o with
          | true =>
            obtain ⟨g, rfl⟩ : ∃ g, o = PyObj.func g := by
              cases o <;> simp [isFunctionType] at hft ⊢
            rw [unwrapFinal_func] at hinv
            cases hinv
          | false =>
            cases hfa : getFuncAttr o with
            | some f =>
              obtain ⟨fid, rfl⟩ : ∃ fid, o = PyObj.method fid := by
                cases o <;> simp [getFuncAttr] at hfa ⊢
              rw [unwrapFinal_method] at hinv
              cases hinv
            | none =>
              exact Or.inr (Or.inr (Or.inr ⟨o, hchain, hft, hfa⟩))
  · intro hr
    rcases hr with hsp | ⟨m, attrChain, hsp, hmod⟩ |
      ⟨m, attrChain, modObj, hsp, hmod, hwalk⟩ | ⟨o, hchain, hft, hfa⟩
    · rw [getOpHandler_split_none rts vp modules operation hsp]
      rfl
    · rw [getOpHandler_import_caught rts vp modules operation m attrChain hsp hmod]
      rfl
    · rw [getOpHandler_walk_none rts vp modules operation m attrChain modObj hsp hmod hwalk]
      rfl
    · rw [getOpHandler_of_chain rts vp modules operation o hchain,
        unwrapFinal_other _ o hft hfa]
      rfl

theorem C6_invalid_operation_iff_witness :
    isInvalidOperationError (getOpHandler [] (fun _ => "") [] "nohash") = true ∧
    isInvalidOperationError (getOpHandler [] (fun _ => "") [] "#f") = true :=
  ⟨(C6_invalid_operation_iff [] (fun _ => "") [] "nohash").mpr (Or.inl rfl),
   (C6_invalid_operation_iff [] (fun _ => "") [] "#f").mpr
     (Or.inr (Or.inl ⟨"", "f", rfl, Or.inl rfl⟩))⟩

/-- Claim C1: a command name registered by two load units, the second loaded
after the first, ends up mapped to the second unit definition in the command
table; and when the second unit is an extension and the name is present in
`cmd_to_mod_map`, the provenance recorded on the command has
`overrides_command = true`. -/
theorem C1_later_unit_wins (envM envE : String → LoadOutcome) (st : MainLoaderState)
    (modName extName name : String) (c1 c2 : AzCliCommand) :
    (∀ r st1 evs,
      assocGet st.command_table name = some c1 →
      envM modName = .ok r → (r.map Prod.fst).Nodup → (name, c2) ∈ r →
      loadCommandsFromCommandModule envM st modName = .ok (st1, evs) →
      assocGet st1.command_table name = some c2) ∧
    (∀ r st1 evs,
      assocGet st.command_table name = some c1 →
      envE extName = .ok r → (r.map Prod.fst).Nodup → (name, c2) ∈ r →
      loadCommandsFromExtension envE st extName = .ok (st1, evs) →
      assocGet st1.command_table name =
        some { c2 with
               command_source :=
                 some { extension_name := extName,
                        overrides_command := assocContains st.cmd_to_mod_map name } } ∧
      (assocContains st.cmd_to_mod_map name = true →
        assocGet st1.command_table name =
          some { c2 with
                 command_source := some { extension_name := extName,
                                          overrides_command := true } })) := by
  constructor
  · intro r st1 evs _ henv hnd hmem hload
    unfold loadCommandsFromCommandModule at hload
    simp only [henv] at hload
    cases hload
    exact assocGet_update_of_mem st.command_table r name c2 hnd hmem
  · intro r st1 evs _ henv hnd hmem hload
    unfold loadCommandsFromExtension at hload
    simp only [henv] at hload
    cases hload
    have h1 : assocGet
        (assocUpdate st.command_table
          (r.map (fun p => (p.1, tagExtensionCommand st extName p.1 p.2)))) name =
        some (tagExtensionCommand st extName name c2) :=
      assocGet_update_of_mem _ _ name _
        (map_value_keys_nodup r (fun k v => tagExtensionCommand st extName k v) hnd)
        (mem_map_value r (fun k v => tagExtensionCommand st extName k v) name c2 hmem)
    refine ⟨h1, ?_⟩
    intro hcont
    rw [h1]
    unfold tagExtensionCommand
    rw [hcont]

theorem C1_later_unit_wins_witness :
    loadCommandsFromExtension
        (fun _ => .ok [("storage list",
          (⟨"storage list", some "e#l2", none, none⟩ : AzCliCommand))])
        ⟨[("storage list", ⟨"storage list", some "m#l1", none, none⟩)],
         [("storage list", "storage")]⟩ "ext1" =
      .ok (⟨[("storage list", ⟨"storage list", some "e#l2", none, some ⟨"ext1", true⟩⟩)],
            [("storage list", "storage")]⟩,
           [Ev.tryLoadExtension "ext1"]) ∧
    assocGet [("storage list",
        (⟨"storage list", some "e#l2", none, some ⟨"ext1", true⟩⟩ : AzCliCommand))]
      "storage list" =
      some ⟨"storage list", some "e#l2", none, some ⟨"ext1", true⟩⟩ ∧
    assocGet [("storage list",
        (⟨"storage list", some "m#l2", none, none⟩ : AzCliCommand))] "storage list" =
      some ⟨"storage list", some "m#l2", none, none⟩ := by
  refine ⟨rfl, ?_, ?_⟩
  · exact ((C1_later_unit_wins (fun _ => .moduleNotFound)
      (fun _ => .ok [("storage list", ⟨"storage list", some "e#l2", none, none⟩)])
      ⟨[("storage list", ⟨"storage list", some "m#l1", none, none⟩)],
       [("storage list", "storage")]⟩
      "storage" "ext1" "storage list" ⟨"storage list", some "m#l1", none, none⟩
      ⟨"storage list", some "e#l2", none, none⟩).2
      [("storage list", ⟨"storage list", some "e#l2", none, none⟩)]
      ⟨[("storage list", ⟨"storage list", some "e#l2", none, some ⟨"ext1", true⟩⟩)],
       [("storage list", "storage")]⟩
      [Ev.tryLoadExtension "ext1"]
      rfl rfl (by simp) (by simp) rfl).2 rfl
  · exact (C1_later_unit_wins
      (fun _ => .ok [("storage list", ⟨"storage list", some "m#l2", none, none⟩)])
      (fun _ => .moduleNotFound)
      ⟨[("storage list", ⟨"storage list", some "m#l1", none, none⟩)],
       [("storage list", "storage")]⟩
      "storage2" "ext1" "storage list" ⟨"storage list", some "m#l1", none, none⟩
      ⟨"storage list", some "m#l2", none, none⟩).1
      [("storage list", ⟨"storage list", some "m#l2", none, none⟩)]
      ⟨[("storage list", ⟨"storage list", some "m#l2", none, none⟩)],
       [("storage list", "storage2")]⟩
      [Ev.tryLoadModule "storage2"]
      rfl rfl (by simp) (by simp) rfl

/-- Claim C2 (counterexample): a non-ModuleNotFound exception raised during
the TARGETED module-load attempt is not captured — it propagates out of
`_update_command_table_from_modules` as a raised error, no error log or
telemetry is emitted, and no other module is loaded. -/
theorem C2_counterexample :
    updateCommandTableFromModules
      (fun m => if m = "badmod" then .err "boom"
        else .ok [("good cmd", ⟨"good cmd", some "g#f", none, none⟩)])
      [] ["badmod", "goodmod"] ⟨[], []⟩ ["badmod"] = .error "boom" := rfl

/-- Claim C2 (amended): during the FALLBACK scan, a module whose load raises
a non-ModuleNotFound exception has the exception captured (the scan returns
normally), an error-level log entry emitted, a telemetry report tagged with
the per-module fault identifier emitted, and every other module that loads
successfully still contributes its entries to the command table. -/
theorem C2_fallback_isolation (envM : String → LoadOutcome)
    (denylist installed : List String) (st : MainLoaderState) (modName e : String)
    (hmem : modName ∈ installed) (hdl : denylist.contains modName = false)
    (herr : envM modName = .err e) :
    ∃ st1 evs,
      updateCommandTableFromModules envM denylist installed st [] = .ok (st1, evs) ∧
      Ev.errorLog ("Error loading command module " ++ modName) ∈ evs ∧
      Ev.telemetry ("module-load-error-" ++ modName) ("Error loading module: " ++ modName) ∈
        evs ∧
      (∀ m2 r2 nm, m2 ∈ installed → denylist.contains m2 = false → envM m2 = .ok r2 →
        assocContains r2 nm = true → assocContains st1.command_table nm = true) := by
  have hmemf : modName ∈ installed.filter (fun m => !denylist.contains m) :=
    List.mem_filter.mpr ⟨hmem, by simp only [hdl, Bool.not_false]⟩
  refine ⟨(fallbackScan envM st (installed.filter (fun m => !denylist.contains m))).1,
    Ev.findCommandModules (installed.filter (fun m => !denylist.contains m)) ::
      (fallbackScan envM st (installed.filter (fun m => !denylist.contains m))).2,
    rfl, ?_, ?_, ?_⟩
  · exact List.mem_cons_of_mem _
      (fallbackScan_err_events envM _ st modName e hmemf herr).1
  · exact List.mem_cons_of_mem _
      (fallbackScan_err_events envM _ st modName e hmemf herr).2
  · intro m2 r2 nm hm2 hd2 henv2 hk
    exact fallbackScan_ok_contains envM _ st m2 r2 nm
      (List.mem_filter.mpr ⟨hm2, by simp only [hd2, Bool.not_false]⟩) henv2 hk

theorem C2_fallback_isolation_witness :
    ("bad" ∈ (["good", "bad"] : List String)) ∧
    (∃ st1 evs,
      updateCommandTableFromModules
        (fun m => if m = "bad" then .err "x"
          else .ok [("net watch", ⟨"net watch", some "n#w", none, none⟩)])
        ["reserved"] ["good", "bad"] ⟨[], []⟩ [] = .ok (st1, evs) ∧
      Ev.errorLog ("Error loading command module " ++ "bad") ∈ evs ∧
      Ev.telemetry ("module-load-error-" ++ "bad") ("Error loading module: " ++ "bad") ∈
        evs ∧
      (∀ m2 r2 nm, m2 ∈ (["good", "bad"] : List String) →
        (["reserved"] : List String).contains m2 = false →
        (fun m => if m = "bad" then LoadOutcome.err "x"
          else .ok [("net watch", ⟨"net watch", some "n#w", none, none⟩)]) m2 = .ok r2 →
        assocContains r2 nm = true → assocContains st1.command_table nm = true)) :=
  ⟨by decide,
    C2_fallback_isolation
      (fun m => if m = "bad" then .err "x"
        else .ok [("net watch", ⟨"net watch", some "n#w", none, none⟩)])
      ["reserved"] ["good", "bad"] ⟨[], []⟩ "bad" "x" (by decide) (by decide) rfl⟩

/-- Claim C3: when the first input token is present (non-empty) and not
denylisted, only the module named by that token is load-attempted, and the
fallback scan over all installed modules is skipped exactly when that
targeted load leaves the command table non-empty; a denylisted root command,
an empty argument list, or a targeted load leaving the table empty always
triggers the full fallback scan. -/
theorem C3_targeted_load_gating (envM : String → LoadOutcome)
    (denylist installed : List String) (st : MainLoaderState) :
    (∀ root rest st1 evs1, root ≠ "" → denylist.contains root = false →
      loadCommandsFromCommandModule envM st root = .ok (st1, evs1) →
      (st1.command_table.isEmpty = false →
        updateCommandTableFromModules envM denylist installed st (root :: rest) =
          .ok (st1, evs1) ∧
        (∀ m, Ev.tryLoadModule m ∈ evs1 → m = root) ∧
        (∀ mods, Ev.findCommandModules mods ∉ evs1)) ∧
      (st1.command_table.isEmpty = true →
        ∃ st2 evs2,
          updateCommandTableFromModules envM denylist installed st (root :: rest) =
            .ok (st2, evs2) ∧
          Ev.findCommandModules (installed.filter (fun m => !denylist.contains m)) ∈ evs2)) ∧
    (∀ p, updateCommandTableFromModules envM denylist installed st [] = .ok p →
      Ev.findCommandModules (installed.filter (fun m => !denylist.contains m)) ∈ p.2) ∧
    (∀ root rest p, denylist.contains root = true →
      updateCommandTableFromModules envM denylist installed st (root :: rest) = .ok p →
      Ev.findCommandModules (installed.filter (fun m => !denylist.contains m)) ∈ p.2) := by
  refine ⟨?_, ?_, ?_⟩
  · intro root rest st1 evs1 hroot hdl hload
    have hcond : root ≠ "" ∧ ¬ denylist.contains root = true := ⟨hroot, by simp only [hdl]; exact Bool.false_ne_true⟩
    constructor
    · intro hne
      have hupd : updateCommandTableFromModules envM denylist installed st (root :: rest) =
          .ok (st1, evs1) := by
        unfold updateCommandTableFromModules
        simp only
        rw [if_pos hcond, hload]
        simp only
        rw [if_neg (by simp [hne])]
      refine ⟨hupd, ?_, ?_⟩
      · intro m hm
        rcases loadModule_events envM st root st1 evs1 hload (Ev.tryLoadModule m) hm
          with h1 | h1
        · cases h1
          rfl
        · cases h1
      · intro mods hmods
        rcases loadModule_events envM st root st1 evs1 hload (Ev.findCommandModules mods)
          hmods with h1 | h1
        · cases h1
        · cases h1
    · intro hempty
      have hupd : updateCommandTableFromModules envM denylist installed st (root :: rest) =
          moduleFallbackPhase envM denylist installed st1 evs1 := by
        unfold updateCommandTableFromModules
        simp only
        rw [if_pos hcond, hload]
        simp only
        rw [if_pos hempty]
      refine ⟨(fallbackScan envM st1 (installed.filter (fun m => !denylist.contains m))).1,
        evs1 ++ Ev.findCommandModules (installed.filter (fun m => !denylist.contains m)) ::
          (fallbackScan envM st1 (installed.filter (fun m => !denylist.contains m))).2,
        hupd, ?_⟩
      exact List.mem_append_right _ (List.mem_cons_self _ _)
  · intro p hp
    unfold updateCommandTableFromModules moduleFallbackPhase at hp
    simp only at hp
    cases hp
    simp
  · intro root rest p hdl hp
    unfold updateCommandTableFromModules moduleFallbackPhase at hp
    simp only at hp
    have hnc : ¬ (root ≠ "" ∧ ¬ denylist.contains root = true) := fun hc => hc.2 hdl
    rw [if_neg hnc] at hp
    cases hp
    simp

theorem C3_targeted_load_gating_witness :
    (loadCommandsFromCommandModule
        (fun m => if m = "storage" then
          .ok [("storage list", ⟨"storage list", some "s#l", none, none⟩)]
          else .moduleNotFound)
        ⟨[], []⟩ "storage" =
      .ok (⟨[("storage list", ⟨"storage list", some "s#l", none, none⟩)],
            [("storage list", "storage")]⟩, [Ev.tryLoadModule "storage"])) ∧
    (updateCommandTableFromModules
        (fun m => if m = "storage" then
          .ok [("storage list", ⟨"storage list", some "s#l", none, none⟩)]
          else .moduleNotFound)
        ["help"] ["storage", "help"] ⟨[], []⟩ ["storage"] =
      .ok (⟨[("storage list", ⟨"storage list", some "s#l", none, none⟩)],
            [("storage list", "storage")]⟩, [Ev.tryLoadModule "storage"])) ∧
    (∀ p, updateCommandTableFromModules
        (fun m => if m = "storage" then
          .ok [("storage list", ⟨"storage list", some "s#l", none, none⟩)]
          else .moduleNotFound)
        ["help"] ["storage", "help"] ⟨[], []⟩ [] = .ok p →
      Ev.findCommandModules
        ((["storage", "help"] : List String).filter
          (fun m => !(["help"] : List String).contains m)) ∈ p.2) ∧
    (∀ p, updateCommandTableFromModules
        (fun m => if m = "storage" then
          .ok [("storage list", ⟨"storage list", some "s#l", none, none⟩)]
          else .moduleNotFound)
        ["help"] ["storage", "help"] ⟨[], []⟩ ["help"] = .ok p →
      Ev.findCommandModules
        ((["storage", "help"] : List String).filter
          (fun m => !(["help"] : List String).contains m)) ∈ p.2) := by
  refine ⟨rfl, ?_, ?_, ?_⟩
  · exact (((C3_targeted_load_gating
      (fun m => if m = "storage" then
        .ok [("storage list", ⟨"storage list", some "s#l", none, none⟩)]
        else .moduleNotFound)
      ["help"] ["storage", "help"] ⟨[], []⟩).1 "storage" []
      ⟨[("storage list", ⟨"storage list", some "s#l", none, none⟩)],
       [("storage list", "storage")]⟩
      [Ev.tryLoadModule "storage"]
      (by decide) (by decide) rfl).1 rfl).1
  · exact (C3_targeted_load_gating
      (fun m => if m = "storage" then
        .ok [("storage list", ⟨"storage list", some "s#l", none, none⟩)]
        else .moduleNotFound)
      ["help"] ["storage", "help"] ⟨[], []⟩).2.1
  · intro p hp
    exact (C3_targeted_load_gating
      (fun m => if m = "storage" then
        .ok [("storage list", ⟨"storage list", some "s#l", none, none⟩)]
        else .moduleNotFound)
      ["help"] ["storage", "help"] ⟨[], []⟩).2.2 "help" [] p (by decide) hp

end AzSpec

